import Mathlib

/-!
Verification development for the peer-liveness refinery subsystem of darkfi
(`src/net/session/refine_session.rs`): the `RefineSession` lifecycle wrapper,
its `handshake_node` probe, and the `GreylistRefinery` policy loop, together
with the host registry and host container they operate on.

The refinery loop and the session wrapper are embedded directly from
`refine_session.rs`.  The host container and host registry live in the hosts
module, outside the reviewed sources, so those operations are modelled from
the specification (sections 4.1 and 4.2), as noted on each definition.
-/

/-- Address identity: scheme + host + port, compared by full value. -/
structure Addr where
  scheme : String
  host : String
  port : Nat
deriving DecidableEq, Repr

/-- A hostlist entry: an address together with its last-seen timestamp. -/
structure HostEntry where
  addr : Addr
  last_seen : Nat
deriving DecidableEq, Repr

/-- Trust tiers of the four hostlists. -/
inductive HostColor where
  | Grey
  | White
  | Gold
  | Black
deriving DecidableEq, Repr

/-- Transient coordination states tracked by the host registry. -/
inductive HostState where
  | Free
  | Suspend
  | Refine
  | Connect
deriving DecidableEq, Repr

/-- The four color lists held by the host container. -/
structure HostContainer where
  grey : List HostEntry
  white : List HostEntry
  gold : List HostEntry
  black : List HostEntry
deriving DecidableEq, Repr

/-- The list held for a given color. -/
def HostContainer.list (c : HostContainer) : HostColor → List HostEntry
  | HostColor.Grey => c.grey
  | HostColor.White => c.white
  | HostColor.Gold => c.gold
  | HostColor.Black => c.black

/-- Replace the list held for a given color. -/
def HostContainer.setList (c : HostContainer) : HostColor → List HostEntry → HostContainer
  | HostColor.Grey, l => { c with grey := l }
  | HostColor.White, l => { c with white := l }
  | HostColor.Gold, l => { c with gold := l }
  | HostColor.Black, l => { c with black := l }

/-- The host registry: a finite map from address to transient state,
represented as an association list. -/
abbrev HostRegistry := List (Addr × HostState)

/-- Current state registered for an address, if any. -/
def registryLookup (r : HostRegistry) (a : Addr) : Option HostState :=
  (r.find? (fun p => decide (p.1 = a))).map Prod.snd

/-- Modelled from the spec: `HostRegistry::unregister` (hosts module, not in
the reviewed sources).  Idempotent removal; absent address is a no-op. -/
def unregister (r : HostRegistry) (a : Addr) : HostRegistry :=
  r.filter (fun p => !(decide (p.1 = a)))

/-- Modelled from the spec: `HostRegistry::try_register` (hosts module, not in
the reviewed sources).  If the address is absent or Free, set it to `s` and
succeed; otherwise fail with Busy and leave existing state untouched. -/
def try_register (r : HostRegistry) (a : Addr) (s : HostState) :
    Except Unit HostRegistry :=
  match registryLookup r a with
  | none => Except.ok ((a, s) :: r)
  | some HostState.Free => Except.ok ((a, s) :: unregister r a)
  | some _ => Except.error ()

/-- Modelled from the spec: `HostRegistry::suspended` (hosts module, not in
the reviewed sources).  Snapshot of the addresses currently in Suspend. -/
def suspended (r : HostRegistry) : List Addr :=
  (r.filter (fun p => decide (p.2 = HostState.Suspend))).map Prod.fst

/-- Whether some entry of the list carries the given address. -/
def containsAddr (l : List HostEntry) (a : Addr) : Bool :=
  l.any (fun e => decide (e.addr = a))

/-- Every entry carrying the given address, removed. -/
def removeAddr (l : List HostEntry) (a : Addr) : List HostEntry :=
  l.filter (fun e => !(decide (e.addr = a)))

/-- Modelled from the spec: `HostContainer::is_empty` (hosts module, not in
the reviewed sources).  Cheap emptiness predicate on a color list. -/
def is_empty (c : HostContainer) (col : HostColor) : Bool :=
  (c.list col).isEmpty

/-- Modelled from the spec: `HostContainer::get_index_at_addr` (hosts module,
not in the reviewed sources), on one list: position of the first entry with
the given address. -/
def list_index_at_addr (l : List HostEntry) (a : Addr) : Option Nat :=
  match l with
  | [] => none
  | e :: rest =>
    if e.addr = a then some 0 else (list_index_at_addr rest a).map (· + 1)

/-- Modelled from the spec: `HostContainer::get_index_at_addr` (hosts module,
not in the reviewed sources).  Positional lookup of an address in a color
list, used immediately before removal by the claiming worker. -/
def get_index_at_addr (c : HostContainer) (col : HostColor) (a : Addr) :
    Option Nat :=
  list_index_at_addr (c.list col) a

/-- Modelled from the spec: `HostContainer::fetch_random_with_schemes` (hosts
module, not in the reviewed sources).  Samples one entry of the color list
whose scheme is allowed, `k` supplying the random draw; none if no entry
matches.  Returns the entry together with its sampled position. -/
def fetch_random_with_schemes (c : HostContainer) (col : HostColor)
    (schemes : List String) (k : Nat) : Option (HostEntry × Nat) :=
  let ms := (c.list col).filter (fun e => decide (e.addr.scheme ∈ schemes))
  match ms.get? (k % ms.length) with
  | none => none
  | some e => some (e, k % ms.length)

/-- Modelled from the spec: `HostContainer::move_host` (hosts module, not in
the reviewed sources).  Removes the entry from whichever color list holds it
and appends it to `dest` with the new last-seen; NotFound if the address is
in no list. -/
def move_host (c : HostContainer) (a : Addr) (new_last_seen : Nat)
    (dest : HostColor) : Except Unit HostContainer :=
  if containsAddr c.grey a || containsAddr c.white a ||
      containsAddr c.gold a || containsAddr c.black a then
    let c' : HostContainer :=
      { grey := removeAddr c.grey a, white := removeAddr c.white a,
        gold := removeAddr c.gold a, black := removeAddr c.black a }
    Except.ok (c'.setList dest
      (c'.list dest ++ [{ addr := a, last_seen := new_last_seen }]))
  else
    Except.error ()

/-! ### The handshake probe (`RefineSession::handshake_node`, lines 114-167) -/

/-- The fixed handshake timeout: `Timer::after(Duration::from_secs(5))`. -/
def handshake_timeout_secs : Nat := 5

/-- Observable channel actions performed by `handshake_node`, in order. -/
inductive NetAction where
  | channel_start
  | channel_stop
deriving DecidableEq, Repr

/-- Behaviour of the version-exchange handshake future: completes at second
`t` with outcome Ok (`true`) or Err (`false`), or never completes. -/
abbrev HandshakeFut := Option (Nat × Bool)

/-- Outcome of `select(handshake, timeout)`: Left carries the handshake
result, Right means the timer fired first. -/
inductive SelectOutcome where
  | left (ok : Bool)
  | right
deriving DecidableEq, Repr

/-- First-to-complete selection of `futures::future::select` on the pinned
handshake and timer: the handshake wins when it is ready no later than the
timer (select polls its first argument first). -/
def select_handshake_timer (hs : HandshakeFut) (timer : Nat) : SelectOutcome :=
  match hs with
  | none => SelectOutcome.right
  | some (t, ok) => if t ≤ timer then SelectOutcome.left ok else SelectOutcome.right

/-- Embedded from `RefineSession::handshake_node` (refine_session.rs
114-167).  `conn` is the `Connector::connect` outcome: an error, or a
channel whose handshake future behaves as described by the `HandshakeFut`.
Returns the boolean result together with the trace of channel actions
performed, in order. -/
def handshake_node (conn : Except String HandshakeFut) :
    Bool × List NetAction :=
  match conn with
  | Except.ok hs =>
    let result :=
      match select_handshake_timer hs handshake_timeout_secs with
      | SelectOutcome.left true => true
      | SelectOutcome.left false => false
      | SelectOutcome.right => false
    (result, [NetAction.channel_start, NetAction.channel_stop])
  | Except.error _ => (false, [])

/-! ### Session lifecycle (`RefineSession::start`/`stop`, lines 73-109) -/

/-- Observable steps of `RefineSession::start`, in order. -/
inductive StartAction where
  | load_hosts
  | warn_load
  | blacklist_import
  | warn_import
  | refinery_start
deriving DecidableEq, Repr

/-- Embedded from `RefineSession::start` (refine_session.rs 73-94): load the
persisted hostlists, import the blacklist, then start the refinery.  Each
failure only produces a warning log step. -/
def RefineSession_start (load_res import_res : Except String Unit) :
    List StartAction :=
  ([StartAction.load_hosts] ++
    (match load_res with
     | Except.ok _ => []
     | Except.error _ => [StartAction.warn_load])) ++
  ([StartAction.blacklist_import] ++
    (match import_res with
     | Except.ok _ => []
     | Except.error _ => [StartAction.warn_import])) ++
  [StartAction.refinery_start]

/-- Observable steps of `RefineSession::stop`, in order. -/
inductive StopAction where
  | refinery_stop_awaited
  | save_hosts
  | warn_save
deriving DecidableEq, Repr

/-- Embedded from `RefineSession::stop` (refine_session.rs 97-109): stop the
refinery task and await its termination, then save the hostlists; a save
failure only produces a warning log step. -/
def RefineSession_stop (save_res : Except String Unit) : List StopAction :=
  [StopAction.refinery_stop_awaited, StopAction.save_hosts] ++
  (match save_res with
   | Except.ok _ => []
   | Except.error _ => [StopAction.warn_save])

/-! ### The refinery loop body (`GreylistRefinery::run`, lines 221-321) -/

/-- The shared mutable state the refinery iteration touches. -/
structure RefineryState where
  container : HostContainer
  registry : HostRegistry
deriving DecidableEq, Repr

/-- Result of one refinery iteration: a next state, or a panic (an `unwrap`
hit its None/Err branch) with the state at the moment of the panic. -/
inductive IterResult where
  | ok (st : RefineryState)
  | panicked (st : RefineryState)
deriving DecidableEq, Repr

/-- Probe-failure branch of the iteration (refine_session.rs 274-297):
remove the entry from Grey by positional lookup (`unwrap` on the index),
then release the claim. -/
def refinery_failure_branch (st : RefineryState) (url : Addr) : IterResult :=
  match get_index_at_addr st.container HostColor.Grey url with
  | none => IterResult.panicked st
  | some position =>
    let grey := (st.container.list HostColor.Grey).eraseIdx position
    IterResult.ok
      { container := st.container.setList HostColor.Grey grey,
        registry := unregister st.registry url }

/-- Probe-success branch of the iteration (refine_session.rs 303-309): move
the entry to White stamped with the current time (`unwrap` on the move),
then release the claim. -/
def refinery_success_branch (st : RefineryState) (url : Addr) (now : Nat) :
    IterResult :=
  match move_host st.container url now HostColor.White with
  | Except.error _ => IterResult.panicked st
  | Except.ok c => IterResult.ok { container := c, registry := unregister st.registry url }

/-- Embedded from the body of `GreylistRefinery::run` (refine_session.rs
226-319), one iteration after the sleep.  `time_with_no_connections` is the
offline-pause threshold, `offline_timer` the elapsed time since the last
connection, `is_connected` whether any connection is active, `probe` the
outcome of `handshake_node` per address, `k` the random draw, and `now` the
current unix time used as the last-seen stamp. -/
def refinery_iteration (allowed_transports : List String)
    (time_with_no_connections : Nat) (offline_timer : Nat)
    (is_connected : Bool) (probe : Addr → Bool) (k : Nat) (now : Nat)
    (st : RefineryState) : IterResult :=
  if is_empty st.container HostColor.Grey = true then
    IterResult.ok st
  else if is_connected = false ∧ time_with_no_connections ≤ offline_timer then
    IterResult.ok
      { st with
        registry := (suspended st.registry).foldl (fun r a => unregister r a) st.registry }
  else
    match fetch_random_with_schemes st.container HostColor.Grey allowed_transports k with
    | none => IterResult.ok st
    | some (entry, _) =>
      let url := entry.addr
      match try_register st.registry url HostState.Refine with
      | Except.error _ => IterResult.ok st
      | Except.ok reg =>
        let st1 : RefineryState := { st with registry := reg }
        if probe url = false then
          refinery_failure_branch st1 url
        else
          refinery_success_branch st1 url now

/-- Iterate the refinery over a sequence of random draws `ks`, with the node
connected and every probe failing; stops at the first panic. -/
def run_failing (allowed : List String) (ks : List Nat) (st : RefineryState) :
    IterResult :=
  match ks with
  | [] => IterResult.ok st
  | k :: rest =>
    match refinery_iteration allowed 0 0 true (fun _ => false) k 0 st with
    | IterResult.ok st' => run_failing allowed rest st'
    | IterResult.panicked st' => IterResult.panicked st'

/-! ### Concrete states used to exercise the definitions -/

/-- A tcp address. -/
def addrA : Addr := { scheme := "tcp", host := "a", port := 1 }

/-- Another tcp address. -/
def addrB : Addr := { scheme := "tcp", host := "b", port := 2 }

/-- One grey tcp entry, empty registry. -/
def stGrey : RefineryState :=
  { container :=
      { grey := [{ addr := addrA, last_seen := 0 }],
        white := [], gold := [], black := [] },
    registry := [] }

/-- One grey tcp entry whose address is already claimed by another worker. -/
def stBusy : RefineryState :=
  { container :=
      { grey := [{ addr := addrA, last_seen := 0 }],
        white := [], gold := [], black := [] },
    registry := [(addrA, HostState.Connect)] }

/-- One grey tcp entry, one unrelated suspended address in the registry. -/
def stSuspend : RefineryState :=
  { container :=
      { grey := [{ addr := addrA, last_seen := 0 }],
        white := [], gold := [], black := [] },
    registry := [(addrB, HostState.Suspend)] }

/-- Empty hostlists, one suspended address in the registry. -/
def stNoGrey : RefineryState :=
  { container := { grey := [], white := [], gold := [], black := [] },
    registry := [(addrB, HostState.Suspend)] }

/-- Empty hostlists while the registry still holds a Refine claim. -/
def stClaimOnly : RefineryState :=
  { container := { grey := [], white := [], gold := [], black := [] },
    registry := [(addrA, HostState.Refine)] }

/-! ### Supporting lemmas -/

theorem registryLookup_unregister_self (r : HostRegistry) (a : Addr) :
    registryLookup (unregister r a) a = none := by
  rw [registryLookup, Option.map_eq_none']
  rw [List.find?_eq_none]
  intro x hx
  have hmem := List.mem_filter.mp hx
  simp only [Bool.not_eq_true'] at hmem
  simp [hmem.2]

theorem registryLookup_unregister_of_none (r : HostRegistry) (a b : Addr)
    (h : registryLookup r a = none) :
    registryLookup (unregister r b) a = none := by
  rw [registryLookup, Option.map_eq_none'] at h ⊢
  rw [List.find?_eq_none] at h ⊢
  intro x hx
  exact h x (List.mem_of_mem_filter hx)

theorem registryLookup_foldl_unregister_of_none (l : List Addr)
    (r : HostRegistry) (a : Addr) (h : registryLookup r a = none) :
    registryLookup (l.foldl (fun r b => unregister r b) r) a = none := by
  induction l generalizing r with
  | nil => exact h
  | cons b t ih =>
    exact ih (unregister r b) (registryLookup_unregister_of_none r a b h)

theorem registryLookup_foldl_unregister_of_mem (l : List Addr)
    (r : HostRegistry) (a : Addr) (h : a ∈ l) :
    registryLookup (l.foldl (fun r b => unregister r b) r) a = none := by
  induction l generalizing r with
  | nil => cases h
  | cons b t ih =>
    rcases List.mem_cons.mp h with h1 | h2
    · subst h1
      exact registryLookup_foldl_unregister_of_none t (unregister r a) a
        (registryLookup_unregister_self r a)
    · exact ih (unregister r b) h2

theorem containsAddr_iff (l : List HostEntry) (a : Addr) :
    containsAddr l a = true ↔ ∃ e ∈ l, e.addr = a := by
  simp [containsAddr, List.any_eq_true]

theorem containsAddr_removeAddr_self (l : List HostEntry) (a : Addr) :
    containsAddr (removeAddr l a) a = false := by
  rw [Bool.eq_false_iff]
  intro hc
  rcases (containsAddr_iff _ _).mp hc with ⟨e, he, hea⟩
  have := (List.mem_filter.mp he).2
  simp only [Bool.not_eq_true'] at this
  simp [hea] at this

theorem list_index_at_addr_isSome (l : List HostEntry) (a : Addr)
    (h : ∃ e ∈ l, e.addr = a) : ∃ i, list_index_at_addr l a = some i := by
  induction l with
  | nil => rcases h with ⟨e, he, _⟩; cases he
  | cons e t ih =>
    by_cases hea : e.addr = a
    · exact ⟨0, by simp [list_index_at_addr, hea]⟩
    · rcases h with ⟨f, hf, hfa⟩
      rcases List.mem_cons.mp hf with h1 | h2
      · subst h1; exact absurd hfa hea
      · rcases ih ⟨f, h2, hfa⟩ with ⟨i, hi⟩
        exact ⟨i + 1, by simp [list_index_at_addr, hea, hi]⟩

theorem list_index_at_addr_lt_length (l : List HostEntry) (a : Addr) (i : Nat)
    (h : list_index_at_addr l a = some i) : i < l.length := by
  induction l generalizing i with
  | nil => simp [list_index_at_addr] at h
  | cons e t ih =>
    by_cases hea : e.addr = a
    · simp only [list_index_at_addr, if_pos hea] at h
      cases h
      simp
    · simp only [list_index_at_addr, if_neg hea, Option.map_eq_some'] at h
      rcases h with ⟨j, hj, hji⟩
      subst hji
      have := ih j hj
      simp only [List.length_cons]
      omega

theorem fetch_random_mem (c : HostContainer) (col : HostColor)
    (schemes : List String) (k : Nat) (e : HostEntry) (i : Nat)
    (h : fetch_random_with_schemes c col schemes k = some (e, i)) :
    e ∈ c.list col ∧ e.addr.scheme ∈ schemes := by
  simp only [fetch_random_with_schemes] at h
  split at h
  · cases h
  · rename_i e' hget
    cases h
    have hmem := List.get?_mem hget
    have := List.mem_filter.mp hmem
    exact ⟨this.1, of_decide_eq_true this.2⟩

theorem fetch_random_isSome (c : HostContainer) (col : HostColor)
    (schemes : List String) (k : Nat)
    (h : ∃ e ∈ c.list col, e.addr.scheme ∈ schemes) :
    ∃ e i, fetch_random_with_schemes c col schemes k = some (e, i) := by
  rcases h with ⟨e, he, hs⟩
  have hf : e ∈ (c.list col).filter (fun e => decide (e.addr.scheme ∈ schemes)) :=
    List.mem_filter.mpr ⟨he, decide_eq_true hs⟩
  have hlen : 0 < ((c.list col).filter (fun e => decide (e.addr.scheme ∈ schemes))).length :=
    List.length_pos.mpr (List.ne_nil_of_mem hf)
  have hlt := Nat.mod_lt k hlen
  rcases List.get?_eq_get hlt with hget
  simp only [fetch_random_with_schemes]
  rw [hget]
  exact ⟨_, _, rfl⟩

theorem failure_branch_ok (st : RefineryState) (url : Addr)
    (h : ∃ e ∈ st.container.grey, e.addr = url) :
    ∃ i, i < st.container.grey.length ∧
      refinery_failure_branch st url = IterResult.ok
        { container := st.container.setList HostColor.Grey
            (st.container.grey.eraseIdx i),
          registry := unregister st.registry url } := by
  rcases list_index_at_addr_isSome st.container.grey url h with ⟨i, hi⟩
  refine ⟨i, list_index_at_addr_lt_length _ _ _ hi, ?_⟩
  simp only [refinery_failure_branch, get_index_at_addr]
  have hlist : HostContainer.list st.container HostColor.Grey = st.container.grey := rfl
  rw [hlist, hi]

theorem success_branch_ok (st : RefineryState) (url : Addr) (now : Nat)
    (h : containsAddr st.container.grey url = true) :
    refinery_success_branch st url now = IterResult.ok
      { container :=
          { grey := removeAddr st.container.grey url,
            white := removeAddr st.container.white url ++
              [{ addr := url, last_seen := now }],
            gold := removeAddr st.container.gold url,
            black := removeAddr st.container.black url },
        registry := unregister st.registry url } := by
  simp only [refinery_success_branch, move_host, h, Bool.true_or, if_pos]
  rfl

theorem grey_ne_nil_of_fetch (c : HostContainer) (schemes : List String)
    (k : Nat) (e : HostEntry) (i : Nat)
    (h : fetch_random_with_schemes c HostColor.Grey schemes k = some (e, i)) :
    is_empty c HostColor.Grey = false := by
  have hmem := (fetch_random_mem c HostColor.Grey schemes k e i h).1
  have hne : c.list HostColor.Grey ≠ [] := List.ne_nil_of_mem hmem
  simp [is_empty, List.isEmpty_iff, hne]

theorem iteration_probe_path (allowed : List String) (lim tim : Nat)
    (probe : Addr → Bool) (k now : Nat) (st : RefineryState)
    (entry : HostEntry) (pos : Nat) (reg : HostRegistry)
    (hfetch : fetch_random_with_schemes st.container HostColor.Grey allowed k =
      some (entry, pos))
    (hreg : try_register st.registry entry.addr HostState.Refine = Except.ok reg) :
    refinery_iteration allowed lim tim true probe k now st =
      if probe entry.addr = false then
        refinery_failure_branch { st with registry := reg } entry.addr
      else
        refinery_success_branch { st with registry := reg } entry.addr now := by
  have hempty := grey_ne_nil_of_fetch st.container allowed k entry pos hfetch
  simp only [refinery_iteration, hempty, Bool.false_eq_true, if_false, hfetch, hreg]
  have : ¬(true = false ∧ lim ≤ tim) := by simp
  rw [if_neg this]

theorem unregister_singleton (a : Addr) (s : HostState) :
    unregister [(a, s)] a = [] := by
  simp [unregister]

theorem failing_step (allowed : List String) (k : Nat) (st : RefineryState)
    (hreg : st.registry = [])
    (hall : ∀ e ∈ st.container.grey, e.addr.scheme ∈ allowed)
    (hne : st.container.grey ≠ []) :
    ∃ st', refinery_iteration allowed 0 0 true (fun _ => false) k 0 st =
        IterResult.ok st' ∧
      st'.container.grey.length + 1 = st.container.grey.length ∧
      st'.registry = [] ∧
      ∀ e ∈ st'.container.grey, e.addr.scheme ∈ allowed := by
  obtain ⟨e0, he0⟩ : ∃ e0, e0 ∈ st.container.grey :=
    List.exists_mem_of_ne_nil _ hne
  rcases fetch_random_isSome st.container HostColor.Grey allowed k
      ⟨e0, he0, hall e0 he0⟩ with ⟨e, i, hfetch⟩
  have htr : try_register st.registry e.addr HostState.Refine =
      Except.ok [(e.addr, HostState.Refine)] := by
    rw [hreg]; rfl
  have hpath := iteration_probe_path allowed 0 0 (fun _ => false) k 0 st e i
    [(e.addr, HostState.Refine)] hfetch htr
  rw [if_pos rfl] at hpath
  have hmem : e ∈ st.container.grey := (fetch_random_mem _ _ _ _ _ _ hfetch).1
  rcases failure_branch_ok { st with registry := [(e.addr, HostState.Refine)] }
      e.addr ⟨e, hmem, rfl⟩ with ⟨j, hj, hfb⟩
  rw [hfb] at hpath
  refine ⟨_, hpath, ?_, ?_, ?_⟩
  · have hj' : j < st.container.grey.length := hj
    have hlen : (st.container.grey.eraseIdx j).length = st.container.grey.length - 1 :=
      List.length_eraseIdx_of_lt hj'
    show (st.container.grey.eraseIdx j).length + 1 = st.container.grey.length
    omega
  · exact unregister_singleton e.addr HostState.Refine
  · intro f hf
    exact hall f (List.mem_of_mem_eraseIdx hf)

theorem run_failing_spec (allowed : List String) (ks : List Nat)
    (st : RefineryState) (hreg : st.registry = [])
    (hall : ∀ e ∈ st.container.grey, e.addr.scheme ∈ allowed)
    (hN : ks.length ≤ st.container.grey.length) :
    ∃ st', run_failing allowed ks st = IterResult.ok st' ∧
      st'.container.grey.length = st.container.grey.length - ks.length ∧
      st'.registry = [] := by
  induction ks generalizing st with
  | nil => exact ⟨st, rfl, by simp, hreg⟩
  | cons k t ih =>
    have hne : st.container.grey ≠ [] := by
      intro h0
      rw [h0] at hN
      simp at hN
    rcases failing_step allowed k st hreg hall hne with ⟨st1, hit, hlen, hreg1, hall1⟩
    have hN1 : t.length ≤ st1.container.grey.length := by
      simp only [List.length_cons] at hN
      omega
    rcases ih st1 hreg1 hall1 hN1 with ⟨st', hrun, hlen', hreg'⟩
    refine ⟨st', ?_, ?_, hreg'⟩
    · simp only [run_failing, hit]
      exact hrun
    · simp only [List.length_cons]
      omega

theorem list_index_at_addr_eq_none (l : List HostEntry) (a : Addr)
    (h : ∀ e ∈ l, e.addr ≠ a) : list_index_at_addr l a = none := by
  induction l with
  | nil => rfl
  | cons e t ih =>
    have he : e.addr ≠ a := h e (List.mem_cons_self e t)
    have ht : list_index_at_addr t a = none :=
      ih (fun f hf => h f (List.mem_cons_of_mem e hf))
    simp [list_index_at_addr, he, ht]

theorem failure_branch_panics (st : RefineryState) (url : Addr)
    (h : containsAddr st.container.grey url = false) :
    refinery_failure_branch st url = IterResult.panicked st := by
  have hnone : list_index_at_addr st.container.grey url = none := by
    apply list_index_at_addr_eq_none
    intro e he hea
    have : containsAddr st.container.grey url = true :=
      (containsAddr_iff _ _).mpr ⟨e, he, hea⟩
    rw [h] at this
    cases this
  simp only [refinery_failure_branch, get_index_at_addr]
  have hlist : HostContainer.list st.container HostColor.Grey = st.container.grey := rfl
  rw [hlist, hnone]

theorem success_branch_panics (st : RefineryState) (url : Addr) (now : Nat)
    (hg : containsAddr st.container.grey url = false)
    (hw : containsAddr st.container.white url = false)
    (ho : containsAddr st.container.gold url = false)
    (hb : containsAddr st.container.black url = false) :
    refinery_success_branch st url now = IterResult.panicked st := by
  simp [refinery_success_branch, move_host, hg, hw, ho, hb]

theorem iteration_never_panics (allowed : List String) (lim tim : Nat)
    (conn : Bool) (probe : Addr → Bool) (k now : Nat) (st : RefineryState) :
    ∃ st', refinery_iteration allowed lim tim conn probe k now st =
      IterResult.ok st' := by
  by_cases h1 : is_empty st.container HostColor.Grey = true
  · exact ⟨st, by simp [refinery_iteration, h1]⟩
  have hempty : is_empty st.container HostColor.Grey = false := by
    rwa [Bool.not_eq_true] at h1
  by_cases h2 : conn = false ∧ lim ≤ tim
  · refine ⟨{ st with registry :=
        (suspended st.registry).foldl (fun r a => unregister r a) st.registry }, ?_⟩
    simp only [refinery_iteration, hempty, Bool.false_eq_true, if_false]
    rw [if_pos h2]
  cases hfetch : fetch_random_with_schemes st.container HostColor.Grey allowed k with
  | none =>
    refine ⟨st, ?_⟩
    simp only [refinery_iteration, hempty, Bool.false_eq_true, if_false, hfetch]
    rw [if_neg h2]
  | some p =>
    obtain ⟨entry, pos⟩ := p
    have hmem : entry ∈ st.container.grey :=
      (fetch_random_mem _ _ _ _ _ _ hfetch).1
    cases hclaim : try_register st.registry entry.addr HostState.Refine with
    | error e =>
      refine ⟨st, ?_⟩
      simp only [refinery_iteration, hempty, Bool.false_eq_true, if_false, hfetch, hclaim]
      rw [if_neg h2]
    | ok reg =>
      by_cases hp : probe entry.addr = false
      · rcases failure_branch_ok { st with registry := reg } entry.addr
          ⟨entry, hmem, rfl⟩ with ⟨j, hj, hfb⟩
        refine Exists.intro
          { container := st.container.setList HostColor.Grey (st.container.grey.eraseIdx j),
            registry := unregister reg entry.addr } ?_
        simp only [refinery_iteration, hempty, Bool.false_eq_true, if_false, hfetch, hclaim]
        rw [if_neg h2, if_pos hp]
        exact hfb
      · have hc : containsAddr st.container.grey entry.addr = true :=
          (containsAddr_iff _ _).mpr ⟨entry, hmem, rfl⟩
        refine Exists.intro
          { container :=
              { grey := removeAddr st.container.grey entry.addr,
                white := removeAddr st.container.white entry.addr ++ [{ addr := entry.addr, last_seen := now }],
                gold := removeAddr st.container.gold entry.addr,
                black := removeAddr st.container.black entry.addr },
            registry := unregister reg entry.addr } ?_
        simp only [refinery_iteration, hempty, Bool.false_eq_true, if_false, hfetch, hclaim]
        rw [if_neg h2, if_neg hp]
        exact success_branch_ok { st with registry := reg } entry.addr now hc

/-! ### Claims -/

/-- C1: in every refinery iteration that successfully claims an address as
Refine, the claim is released (the address unregistered) before the
iteration ends, on both the probe-failure branch and the probe-success
branch; consequently N failing probes reduce Grey's size by N and leave the
registry empty. -/
theorem C1_claim_released_and_failing_probes_shrink_grey :
    (∀ (allowed : List String) (lim tim : Nat) (probe : Addr → Bool)
       (k now : Nat) (st : RefineryState) (entry : HostEntry) (pos : Nat)
       (reg : HostRegistry),
       fetch_random_with_schemes st.container HostColor.Grey allowed k =
         some (entry, pos) →
       try_register st.registry entry.addr HostState.Refine = Except.ok reg →
       ∃ st', refinery_iteration allowed lim tim true probe k now st =
           IterResult.ok st' ∧
         registryLookup st'.registry entry.addr = none) ∧
    (∀ (allowed : List String) (ks : List Nat) (st : RefineryState),
       st.registry = [] →
       (∀ e ∈ st.container.grey, e.addr.scheme ∈ allowed) →
       ks.length ≤ st.container.grey.length →
       ∃ st', run_failing allowed ks st = IterResult.ok st' ∧
         st'.container.grey.length = st.container.grey.length - ks.length ∧
         st'.registry = []) := by
  constructor
  · intro allowed lim tim probe k now st entry pos reg hfetch hclaim
    have hpath := iteration_probe_path allowed lim tim probe k now st entry
      pos reg hfetch hclaim
    have hmem : entry ∈ st.container.grey :=
      (fetch_random_mem _ _ _ _ _ _ hfetch).1
    by_cases hp : probe entry.addr = false
    · rw [if_pos hp] at hpath
      rcases failure_branch_ok { st with registry := reg } entry.addr
        ⟨entry, hmem, rfl⟩ with ⟨j, hj, hfb⟩
      rw [hfb] at hpath
      exact ⟨_, hpath, registryLookup_unregister_self reg entry.addr⟩
    · rw [if_neg hp] at hpath
      have hc : containsAddr st.container.grey entry.addr = true :=
        (containsAddr_iff _ _).mpr ⟨entry, hmem, rfl⟩
      rw [success_branch_ok { st with registry := reg } entry.addr now hc] at hpath
      exact ⟨_, hpath, registryLookup_unregister_self reg entry.addr⟩
  · intro allowed ks st h1 h2 h3
    exact run_failing_spec allowed ks st h1 h2 h3

/-- Witness for C1 on a one-entry greylist: the iteration releases the
claim, and one failing probe empties Grey and the registry. -/
theorem C1_witness :
    (∃ st', refinery_iteration ["tcp"] 0 0 true (fun _ => false) 0 0 stGrey =
        IterResult.ok st' ∧
      registryLookup st'.registry addrA = none) ∧
    (∃ st', run_failing ["tcp"] [0] stGrey = IterResult.ok st' ∧
      st'.container.grey.length = stGrey.container.grey.length - 1 ∧
      st'.registry = []) := by
  constructor
  · exact C1_claim_released_and_failing_probes_shrink_grey.1 ["tcp"] 0 0
      (fun _ => false) 0 0 stGrey { addr := addrA, last_seen := 0 } 0
      [(addrA, HostState.Refine)] (by decide) rfl
  · exact C1_claim_released_and_failing_probes_shrink_grey.2 ["tcp"] [0]
      stGrey rfl (by decide) (by decide)

/-- C2: whenever handshake_node successfully opens a channel, the trace of
channel actions it performs is exactly start followed by stop, on every
exit path (handshake success, protocol error, timeout): the channel is
explicitly stopped before returning, so no pump or socket is leaked. -/
theorem C2_channel_stopped_on_every_path (conn : Except String HandshakeFut)
    (hs : HandshakeFut) (h : conn = Except.ok hs) :
    (handshake_node conn).2 =
      [NetAction.channel_start, NetAction.channel_stop] := by
  subst h
  rfl

/-- Witness for C2 on all three exit paths: timeout, handshake error, and
handshake success. -/
theorem C2_witness :
    (handshake_node (Except.ok none)).2 =
      [NetAction.channel_start, NetAction.channel_stop] ∧
    (handshake_node (Except.ok (some (2, false)))).2 =
      [NetAction.channel_start, NetAction.channel_stop] ∧
    (handshake_node (Except.ok (some (2, true)))).2 =
      [NetAction.channel_start, NetAction.channel_stop] :=
  ⟨C2_channel_stopped_on_every_path (Except.ok none) none rfl,
   C2_channel_stopped_on_every_path (Except.ok (some (2, false))) (some (2, false)) rfl,
   C2_channel_stopped_on_every_path (Except.ok (some (2, true))) (some (2, true)) rfl⟩

/-- C3: after a successful connect, handshake_node races the handshake
against a fixed 5-second timer with first-to-complete selection: if the
timer completes first (the handshake is late or never completes) the result
is false; if the handshake completes first, the result is exactly its own
success. -/
theorem C3_five_second_race (t : Nat) (b : Bool) :
    handshake_timeout_secs = 5 ∧
    (handshake_node (Except.ok none)).1 = false ∧
    (handshake_timeout_secs < t →
      (handshake_node (Except.ok (some (t, b)))).1 = false) ∧
    (t ≤ handshake_timeout_secs →
      (handshake_node (Except.ok (some (t, b)))).1 = b) := by
  refine ⟨rfl, rfl, ?_, ?_⟩
  · intro ht
    have hn : ¬ t ≤ handshake_timeout_secs := by omega
    simp [handshake_node, select_handshake_timer, hn]
  · intro ht
    cases b <;> simp [handshake_node, select_handshake_timer, ht]

/-- Witness for C3: a handshake succeeding at 7 seconds loses to the timer
and yields false; one succeeding at 3 seconds wins and yields true. -/
theorem C3_witness :
    ((handshake_node (Except.ok (some (7, true)))).1 = false) ∧
    ((handshake_node (Except.ok (some (3, true)))).1 = true) :=
  ⟨(C3_five_second_race 7 true).2.2.1 (by decide),
   (C3_five_second_race 3 true).2.2.2 (by decide)⟩

/-- C4: handshake_node folds every failure cause into the boolean false: a
connect failure returns false immediately with no channel actions at all
(no channel exists to clean up), and the result is true only for a genuine
handshake success within the timeout. -/
theorem C4_errors_fold_into_false (e : String)
    (conn : Except String HandshakeFut) :
    handshake_node (Except.error e) = (false, []) ∧
    ((handshake_node conn).1 = true →
      ∃ t, conn = Except.ok (some (t, true)) ∧ t ≤ handshake_timeout_secs) := by
  refine ⟨rfl, ?_⟩
  intro htrue
  match conn with
  | Except.error e' => simp [handshake_node] at htrue
  | Except.ok none => simp [handshake_node, select_handshake_timer] at htrue
  | Except.ok (some (t, b)) =>
    by_cases ht : t ≤ handshake_timeout_secs
    · refine ⟨t, ?_, ht⟩
      cases b
      · exfalso
        simp [handshake_node, select_handshake_timer, ht] at htrue
      · rfl
    · exfalso
      simp [handshake_node, select_handshake_timer, ht] at htrue

/-- Witness for C4: a refused connect folds to false with an empty trace,
and a handshake succeeding at 2 seconds is certified as the only way to get
true. -/
theorem C4_witness :
    handshake_node (Except.error "refused") = (false, []) ∧
    (∃ t, (Except.ok (some (2, true)) : Except String HandshakeFut) =
        Except.ok (some (t, true)) ∧ t ≤ handshake_timeout_secs) :=
  ⟨(C4_errors_fold_into_false "refused" (Except.ok (some (2, true)))).1,
   (C4_errors_fold_into_false "refused" (Except.ok (some (2, true)))).2 (by decide)⟩

/-- C5 counterexample: with Grey empty the iteration exits before the
offline-pause step ever runs, so despite zero active connections and
elapsed time (5s) strictly exceeding the threshold (0s), the suspended
address is not released within the iteration. -/
theorem C5_counterexample :
    refinery_iteration ["tcp"] 0 5 false (fun _ => false) 0 0 stNoGrey =
      IterResult.ok stNoGrey ∧
    suspended stNoGrey.registry = [addrB] ∧
    registryLookup stNoGrey.registry addrB = some HostState.Suspend :=
  ⟨rfl, rfl, rfl⟩

/-- C5 (amended): in any refinery iteration where Grey is non-empty, the
node has zero active connections and the elapsed time since the last
successful connection reaches or exceeds the offline-pause threshold, every
address currently held in Suspend state is released within that iteration,
and the rest of the iteration (sampling, claiming, probing) is skipped,
leaving the host container untouched. -/
theorem C5_offline_pause_releases_suspended (allowed : List String)
    (lim tim : Nat) (probe : Addr → Bool) (k now : Nat) (st : RefineryState)
    (hgrey : is_empty st.container HostColor.Grey = false)
    (hlim : lim ≤ tim) :
    ∃ r', refinery_iteration allowed lim tim false probe k now st =
        IterResult.ok { container := st.container, registry := r' } ∧
      ∀ a ∈ suspended st.registry, registryLookup r' a = none := by
  refine ⟨(suspended st.registry).foldl (fun r a => unregister r a) st.registry, ?_, ?_⟩
  · simp [refinery_iteration, hgrey, hlim]
  · intro a ha
    exact registryLookup_foldl_unregister_of_mem _ _ _ ha

/-- Witness for amended C5: a non-empty greylist plus a suspended address;
one offline-paused iteration releases the suspension. -/
theorem C5_witness :
    ∃ r', refinery_iteration ["tcp"] 0 5 false (fun _ => false) 0 0 stSuspend =
        IterResult.ok { container := stSuspend.container, registry := r' } ∧
      ∀ a ∈ suspended stSuspend.registry, registryLookup r' a = none :=
  C5_offline_pause_releases_suspended ["tcp"] 0 5 (fun _ => false) 0 0
    stSuspend (by decide) (by decide)

/-- C6: in any refinery iteration whose probe succeeds, the probed address
ends up present in White stamped with the current time (hence with a
last-seen no earlier than the probe start), and absent from Grey. -/
theorem C6_successful_probe_promotes_to_white (allowed : List String)
    (lim tim : Nat) (probe : Addr → Bool) (k now probe_start : Nat)
    (st : RefineryState) (entry : HostEntry) (pos : Nat) (reg : HostRegistry)
    (hfetch : fetch_random_with_schemes st.container HostColor.Grey allowed k =
      some (entry, pos))
    (hclaim : try_register st.registry entry.addr HostState.Refine =
      Except.ok reg)
    (hprobe : probe entry.addr = true)
    (hstart : probe_start ≤ now) :
    ∃ st', refinery_iteration allowed lim tim true probe k now st =
        IterResult.ok st' ∧
      (∃ e ∈ st'.container.white, e.addr = entry.addr ∧ e.last_seen = now ∧
        probe_start ≤ e.last_seen) ∧
      containsAddr st'.container.grey entry.addr = false := by
  have hpath := iteration_probe_path allowed lim tim probe k now st entry
    pos reg hfetch hclaim
  rw [if_neg (by simp [hprobe])] at hpath
  have hmem : entry ∈ st.container.grey :=
    (fetch_random_mem _ _ _ _ _ _ hfetch).1
  have hc : containsAddr st.container.grey entry.addr = true :=
    (containsAddr_iff _ _).mpr ⟨entry, hmem, rfl⟩
  rw [success_branch_ok { st with registry := reg } entry.addr now hc] at hpath
  refine ⟨_, hpath, ?_, ?_⟩
  · refine ⟨{ addr := entry.addr, last_seen := now }, ?_, rfl, rfl, hstart⟩
    exact List.mem_append_right _ (List.mem_singleton.mpr rfl)
  · exact containsAddr_removeAddr_self st.container.grey entry.addr

/-- Witness for C6 on a one-entry greylist with a succeeding probe. -/
theorem C6_witness :
    ∃ st', refinery_iteration ["tcp"] 0 0 true (fun _ => true) 0 9 stGrey =
        IterResult.ok st' ∧
      (∃ e ∈ st'.container.white, e.addr = addrA ∧ e.last_seen = 9 ∧
        7 ≤ e.last_seen) ∧
      containsAddr st'.container.grey addrA = false :=
  C6_successful_probe_promotes_to_white ["tcp"] 0 0 (fun _ => true) 0 9 7
    stGrey { addr := addrA, last_seen := 0 } 0 [(addrA, HostState.Refine)]
    (by decide) rfl rfl (by decide)

/-- C7: if the refinery's claim of the sampled address fails because the
address is already held, the iteration ends with the state completely
unchanged: no retry, no color-list modification, and no error surfaced. -/
theorem C7_claim_conflict_abandons_candidate (allowed : List String)
    (lim tim : Nat) (probe : Addr → Bool) (k now : Nat) (st : RefineryState)
    (entry : HostEntry) (pos : Nat) (e : Unit)
    (hfetch : fetch_random_with_schemes st.container HostColor.Grey allowed k =
      some (entry, pos))
    (hclaim : try_register st.registry entry.addr HostState.Refine =
      Except.error e) :
    refinery_iteration allowed lim tim true probe k now st =
      IterResult.ok st := by
  have hempty := grey_ne_nil_of_fetch st.container allowed k entry pos hfetch
  simp only [refinery_iteration, hempty, Bool.false_eq_true, if_false,
    hfetch, hclaim]
  rw [if_neg (by simp)]

/-- Witness for C7: the single grey address is already claimed as Connect,
so the iteration leaves the state untouched. -/
theorem C7_witness :
    refinery_iteration ["tcp"] 0 0 true (fun _ => false) 0 0 stBusy =
      IterResult.ok stBusy :=
  C7_claim_conflict_abandons_candidate ["tcp"] 0 0 (fun _ => false) 0 0
    stBusy { addr := addrA, last_seen := 0 } 0 () (by decide) rfl

/-- C8: RefineSession::start treats failures of the hostlist load and the
blacklist import as non-fatal: a warning step appears exactly on failure,
the trace never aborts, and the refinery loop is started as the last step
regardless of either outcome. -/
theorem C8_start_failures_nonfatal (load_res import_res : Except String Unit) :
    (RefineSession_start load_res import_res).getLast? =
      some StartAction.refinery_start ∧
    (StartAction.warn_load ∈ RefineSession_start load_res import_res ↔
      ∃ e, load_res = Except.error e) ∧
    (StartAction.warn_import ∈ RefineSession_start load_res import_res ↔
      ∃ e, import_res = Except.error e) := by
  cases load_res <;> cases import_res <;> simp [RefineSession_start]

/-- C9: RefineSession::stop first stops and awaits the refinery loop and
only afterwards begins the hostlist save: awaiting the refinery is step 0
of the trace and the save is step 1, whatever the save outcome. -/
theorem C9_stop_before_save (save_res : Except String Unit) :
    (RefineSession_stop save_res).get? 0 =
      some StopAction.refinery_stop_awaited ∧
    (RefineSession_stop save_res).get? 1 = some StopAction.save_hosts := by
  cases save_res <;> exact ⟨rfl, rfl⟩

/-- C10 (implicit): the refinery iteration itself establishes, before either
unwrap runs, that the probed address was sampled from Grey and claimed, so
no iteration can ever end in a panic; but absent that precondition the
branches taken in isolation do panic — on an address missing from Grey the
failure branch panics, and on an address in no list the success branch
panics — and in either case the state (hence the still-registered claim) is
left exactly as it was, never released. -/
theorem C10_unwraps_safe_under_claim_precondition :
    (∀ (allowed : List String) (lim tim : Nat) (conn : Bool)
       (probe : Addr → Bool) (k now : Nat) (st : RefineryState),
       ∃ st', refinery_iteration allowed lim tim conn probe k now st =
         IterResult.ok st') ∧
    (∀ (st : RefineryState) (url : Addr),
       containsAddr st.container.grey url = false →
       refinery_failure_branch st url = IterResult.panicked st) ∧
    (∀ (st : RefineryState) (url : Addr) (now : Nat),
       containsAddr st.container.grey url = false →
       containsAddr st.container.white url = false →
       containsAddr st.container.gold url = false →
       containsAddr st.container.black url = false →
       refinery_success_branch st url now = IterResult.panicked st) :=
  ⟨iteration_never_panics, failure_branch_panics, success_branch_panics⟩

/-- Witness for C10: a concrete iteration completes without panic, while
the isolated branches panic on a state whose registry still holds a Refine
claim for an address absent from every list. -/
theorem C10_witness :
    (∃ st', refinery_iteration ["tcp"] 0 0 true (fun _ => false) 0 0 stGrey =
      IterResult.ok st') ∧
    refinery_failure_branch stClaimOnly addrA =
      IterResult.panicked stClaimOnly ∧
    refinery_success_branch stClaimOnly addrA 3 =
      IterResult.panicked stClaimOnly :=
  ⟨C10_unwraps_safe_under_claim_precondition.1 ["tcp"] 0 0 true
      (fun _ => false) 0 0 stGrey,
   C10_unwraps_safe_under_claim_precondition.2.1 stClaimOnly addrA (by decide),
   C10_unwraps_safe_under_claim_precondition.2.2 stClaimOnly addrA 3
     (by decide) (by decide) (by decide) (by decide)⟩
